import Mathlib

/-!
Verification development for `lifekline`, `src/services/geminiService.ts`.

The TypeScript source is shallowly embedded below:
* pure helpers (`getStemPolarity`, `parseInt(...) || 1`, base-URL cleaning,
  the direction rule) become Lean functions;
* the `fetch` retry loop becomes a recursive function over a *script*, a list
  of prearranged fetch outcomes (one entry per `fetch` call), returning the
  final outcome together with the list of backoff waits (in ms, in order) and
  the number of fetch calls performed;
* the response-normalization pipeline (code-fence stripping, brace slicing,
  `JSON.parse`, field validation, truthiness-based defaulting) is embedded
  with an executable JSON parser.  JSON numeric literals are modelled as
  integers (the claims under examination only involve integer payloads;
  fractional/exponent literals are out of scope and make the modelled parse
  fail).
* JavaScript strings are modelled as Lean `String`; `trim` is modelled over
  the character list with `Char.isWhitespace` (JS trims a slightly larger
  Unicode class; the difference does not matter for any claim here).
-/

namespace Lifekline

/-- The character `\x7b` (left curly brace). -/
def lbrace : Char := '\x7b'

/-- The character `\x7d` (right curly brace). -/
def rbrace : Char := '\x7d'

/-- Model of JavaScript `String.prototype.trim` over the character list. -/
def jsTrim (s : String) : String :=
  ⟨((s.data.dropWhile Char.isWhitespace).reverse.dropWhile Char.isWhitespace).reverse⟩

/-- `hasSubstr pat hay` models JavaScript `hay.includes(pat)`. -/
def hasSubstr (pat : List Char) : List Char → Bool
  | [] => pat.isEmpty
  | c :: cs => pat.isPrefixOf (c :: cs) || hasSubstr pat cs

/-- Model of JavaScript `hay.includes(pat)` at the `String` level. -/
def strIncludes (hay pat : String) : Bool := hasSubstr pat.data hay.data

/-! ## Stem polarity (source lines 5–14, `getStemPolarity`) -/

inductive Polarity where
  | YANG
  | YIN
  deriving DecidableEq, BEq

/-- `const yangStems = ['甲', '丙', '戊', '庚', '壬']` -/
def yangStems : List Char := ['甲', '丙', '戊', '庚', '壬']

/-- `const yinStems = ['乙', '丁', '己', '辛', '癸']` -/
def yinStems : List Char := ['乙', '丁', '己', '辛', '癸']

/-- Source lines 5–14.  `pillar.trim().charAt(0)` on a whitespace-only string
yields the empty string, which is a member of neither stem list; that case is
the `none` branch of `head?` below and falls through to the YANG fallback. -/
def getStemPolarity (pillar : String) : Polarity :=
  if pillar = "" then Polarity.YANG -- `if (!pillar) return 'YANG'; // default`
  else
    match (jsTrim pillar).data.head? with
    | none => Polarity.YANG -- `charAt(0)` returned `""`, in neither list
    | some firstChar =>
      if firstChar ∈ yangStems then Polarity.YANG
      else if firstChar ∈ yinStems then Polarity.YIN
      else Polarity.YANG -- fallback

/-! ## Gender and Da Yun direction (source lines 31, 36–43) -/

/-- `Gender` is imported from `../types` (not part of the analysed file); the
analysed code only ever tests `input.gender === Gender.MALE`, and the spec
names exactly the two members MALE and FEMALE. -/
inductive Gender where
  | MALE
  | FEMALE
  deriving DecidableEq

/-- Source lines 37–43:
`if (gender === MALE) isForward = pol === 'YANG' else isForward = pol === 'YIN'`. -/
def computeIsForward (gender : Gender) (yearStemPolarity : Polarity) : Bool :=
  match gender with
  | Gender.MALE => yearStemPolarity == Polarity.YANG
  | Gender.FEMALE => yearStemPolarity == Polarity.YIN

/-- `UserInput` record (from `../types`), with the fields the analysed file
reads.  All fields the source treats as strings are strings here. -/
structure UserInput where
  apiKey : String
  apiBaseUrl : String
  modelName : String
  name : String
  gender : Gender
  birthYear : String
  yearPillar : String
  monthPillar : String
  dayPillar : String
  hourPillar : String
  startAge : String
  firstDaYun : String

/-- The direction derived inside `generateLifeAnalysis` (source lines 36–43):
`getStemPolarity(input.yearPillar)` fed into the gender branch. -/
def derivedDirection (input : UserInput) : Bool :=
  computeIsForward input.gender (getStemPolarity input.yearPillar)

/-! ## `parseInt(input.startAge) || 1` (source line 34) -/

/-- Decimal value of a digit list. -/
def digitsVal (ds : List Char) : Nat :=
  ds.foldl (fun a c => a * 10 + (c.toNat - 48)) 0

/-- Hexadecimal digit test. -/
def isHexDigitChar (c : Char) : Bool :=
  c.isDigit || ('a' ≤ c && c ≤ 'f') || ('A' ≤ c && c ≤ 'F')

/-- Hexadecimal value of one digit. -/
def hexDigitVal (c : Char) : Nat :=
  if c.isDigit then c.toNat - 48
  else if 'a' ≤ c && c ≤ 'f' then c.toNat - 87
  else c.toNat - 55

/-- Hexadecimal value of a digit list. -/
def hexDigitsVal (ds : List Char) : Nat :=
  ds.foldl (fun a c => a * 16 + hexDigitVal c) 0

/-- Model of the JavaScript builtin `parseInt(s)` (no radix argument):
skip leading whitespace, read an optional sign, then either a `0x`/`0X`
hexadecimal literal or the longest decimal-digit prefix; `none` models `NaN`
(no digits at all). -/
def jsParseInt (s : String) : Option Int :=
  let cs := s.data.dropWhile Char.isWhitespace
  let signed : Bool × List Char :=
    match cs with
    | '-' :: t => (true, t)
    | '+' :: t => (false, t)
    | _ => (false, cs)
  let neg := signed.fst
  let cs1 := signed.snd
  let isHex : Bool :=
    match cs1 with
    | '0' :: x :: _ => x == 'x' || x == 'X'
    | _ => false
  if isHex then
    let hs := (cs1.drop 2).takeWhile isHexDigitChar
    if hs.isEmpty then none
    else some (if neg then -(hexDigitsVal hs : Int) else (hexDigitsVal hs : Int))
  else
    let ds := cs1.takeWhile Char.isDigit
    if ds.isEmpty then none
    else some (if neg then -(digitsVal ds : Int) else (digitsVal ds : Int))

/-- Source line 34: `const startAgeInt = parseInt(input.startAge) || 1;`
`NaN` and `0` (and `-0`) are falsy, so both are replaced by `1`. -/
def startAgeInt (startAge : String) : Int :=
  match jsParseInt startAge with
  | none => 1
  | some n => if n = 0 then 1 else n

/-! ## Credential / request preliminaries (source lines 27–31) -/

/-- Source line 28: `apiBaseUrl.replace(/\/+$/, "")` — strip trailing slashes. -/
def cleanBaseUrl (apiBaseUrl : String) : String :=
  ⟨(apiBaseUrl.data.reverse.dropWhile (· == '/')).reverse⟩

/-- Source line 30:
`modelName && modelName.trim() ? modelName.trim() : "gemini-3-pro-preview"`. -/
def targetModel (modelName : String) : String :=
  if modelName ≠ "" ∧ jsTrim modelName ≠ "" then jsTrim modelName
  else "gemini-3-pro-preview"

/-! ## JSON values and `JSON.parse` -/

/-- JSON values; numeric literals are modelled as integers. -/
inductive Json where
  | null
  | bool (b : Bool)
  | num (n : Int)
  | str (s : String)
  | arr (elems : List Json)
  | obj (fields : List (String × Json))

/-- JSON insignificant whitespace (exactly the four characters JSON allows). -/
def isJsonWs (c : Char) : Bool :=
  c == ' ' || c == '\t' || c == '\n' || c == '\r'

/-- Skip insignificant whitespace. -/
def skipWs (cs : List Char) : List Char := cs.dropWhile isJsonWs

/-- Value of a single-character JSON escape, if legal. -/
def escChar (c : Char) : Option Char :=
  if c = '"' then some '"'
  else if c = '\\' then some '\\'
  else if c = '/' then some '/'
  else if c = 'b' then some '\x08'
  else if c = 'f' then some '\x0c'
  else if c = 'n' then some '\n'
  else if c = 'r' then some '\r'
  else if c = 't' then some '\t'
  else none

/-- Hexadecimal value of one digit, if it is one. -/
def hexVal (c : Char) : Option Nat :=
  if isHexDigitChar c then some (hexDigitVal c) else none

/-- Parse the body of a JSON string literal (after the opening quote) up to
and including the closing quote; returns the decoded characters and the rest
of the input.  `\uXXXX` escapes become the code point `XXXX` (surrogate-pair
recombination for astral characters is not modelled; no claim involves it). -/
def parseStringBody : Nat → List Char → Option (List Char × List Char)
  | 0, _ => none
  | _ + 1, [] => none
  | fuel + 1, c :: cs =>
    if c = '"' then some ([], cs)
    else if c = '\\' then
      match cs with
      | [] => none
      | e :: cs2 =>
        if e = 'u' then
          match cs2 with
          | h1 :: h2 :: h3 :: h4 :: cs3 =>
            match hexVal h1, hexVal h2, hexVal h3, hexVal h4 with
            | some a, some b, some c3, some d =>
              (parseStringBody fuel cs3).map
                (fun r => (Char.ofNat (((a * 16 + b) * 16 + c3) * 16 + d) :: r.fst, r.snd))
            | _, _, _, _ => none
          | _ => none
        else
          match escChar e with
          | some ec => (parseStringBody fuel cs2).map (fun r => (ec :: r.fst, r.snd))
          | none => none
    else if c.toNat < 32 then none -- JSON forbids raw control characters
    else (parseStringBody fuel cs).map (fun r => (c :: r.fst, r.snd))

/-- Parse a JSON integer literal: optional `-`, then `0` alone or a nonzero
digit followed by digits (JSON forbids leading zeros). -/
def parseIntLit (cs : List Char) : Option (Int × List Char) :=
  let signed : Bool × List Char :=
    match cs with
    | '-' :: t => (true, t)
    | _ => (false, cs)
  let neg := signed.fst
  let cs1 := signed.snd
  match cs1 with
  | [] => none
  | '0' :: rest =>
    match rest with
    | d :: _ => if d.isDigit then none else some (0, rest)
    | [] => some (0, [])
  | c :: _ =>
    if c.isDigit then
      let ds := cs1.takeWhile Char.isDigit
      let rest := cs1.dropWhile Char.isDigit
      some (if neg then -(digitsVal ds : Int) else (digitsVal ds : Int), rest)
    else none

mutual

/-- Parse one JSON value (fuel-indexed recursive descent). -/
def parseVal : Nat → List Char → Option (Json × List Char)
  | 0, _ => none
  | fuel + 1, cs0 =>
    match skipWs cs0 with
    | [] => none
    | c :: cs =>
      if c = '"' then
        match parseStringBody (fuel + 1) cs with
        | some (sdata, rest) => some (Json.str ⟨sdata⟩, rest)
        | none => none
      else if c = lbrace then
        match skipWs cs with
        | d :: ds =>
          if d = rbrace then some (Json.obj [], ds)
          else (parseFields fuel (d :: ds)).map (fun r => (Json.obj r.fst, r.snd))
        | [] => none
      else if c = '[' then
        match skipWs cs with
        | d :: ds =>
          if d = ']' then some (Json.arr [], ds)
          else (parseElems fuel (d :: ds)).map (fun r => (Json.arr r.fst, r.snd))
        | [] => none
      else if c = 't' then
        match cs with
        | 'r' :: 'u' :: 'e' :: rest => some (Json.bool true, rest)
        | _ => none
      else if c = 'f' then
        match cs with
        | 'a' :: 'l' :: 's' :: 'e' :: rest => some (Json.bool false, rest)
        | _ => none
      else if c = 'n' then
        match cs with
        | 'u' :: 'l' :: 'l' :: rest => some (Json.null, rest)
        | _ => none
      else
        match parseIntLit (c :: cs) with
        | some (n, rest) => some (Json.num n, rest)
        | none => none

/-- Parse the elements of a nonempty JSON array, up to and including `]`. -/
def parseElems : Nat → List Char → Option (List Json × List Char)
  | 0, _ => none
  | fuel + 1, cs =>
    match parseVal fuel cs with
    | none => none
    | some (v, rest) =>
      match skipWs rest with
      | ',' :: r2 => (parseElems fuel r2).map (fun r => (v :: r.fst, r.snd))
      | d :: r2 => if d = ']' then some ([v], r2) else none
      | [] => none

/-- Parse the members of a nonempty JSON object, up to and including the
closing brace. -/
def parseFields : Nat → List Char → Option (List (String × Json) × List Char)
  | 0, _ => none
  | fuel + 1, cs =>
    match skipWs cs with
    | c :: cs1 =>
      if c = '"' then
        match parseStringBody (fuel + 1) cs1 with
        | some (key, r1) =>
          match skipWs r1 with
          | ':' :: r2 =>
            match parseVal fuel r2 with
            | some (v, r3) =>
              match skipWs r3 with
              | ',' :: r4 =>
                (parseFields fuel r4).map (fun r => ((⟨key⟩, v) :: r.fst, r.snd))
              | d :: r4 => if d = rbrace then some ([(⟨key⟩, v)], r4) else none
              | [] => none
            | none => none
          | _ => none
        | none => none
      else none
    | [] => none

end

/-- `JSON.parse` over a character list: one value, then only whitespace. -/
def parseJsonList (cs : List Char) : Option Json :=
  match parseVal (2 * cs.length + 2) cs with
  | some (v, rest) => if (skipWs rest).isEmpty then some v else none
  | none => none

/-- `JSON.parse` at the `String` level. -/
def parseJson (s : String) : Option Json := parseJsonList s.data

/-! ## Error taxonomy

The source only ever throws `new Error(message)`; the constructors below are
in one-to-one correspondence with the throw sites (plus the two places where
the JavaScript *runtime* raises: `response.json()` on a non-JSON body, and
`.replace` on a non-string `content`), and `GenError.message` renders the
exact message string each site builds. -/

inductive GenError where
  | ConfigurationError (msg : String)
  | ServiceUnavailable (retries : Nat) (body : String)
  | HttpError (status : Nat) (body : String)
  | NetworkError (msg : String)
  | UnknownError
  | InvalidEnvelope
  | EmptyResponse
  | NonStringContent
  | MalformedResponse (snippet : String)
  | MissingField

/-- The `err.message` each throw site produces (source lines 21, 24, 127,
135, 155, 163, 186, 191).  The two runtime-raised errors have no message in
the source; their messages are never inspected by the code (only errors
raised inside the retry loop reach the `includes('503')` test). -/
def GenError.message : GenError → String
  | .ConfigurationError m => m
  | .ServiceUnavailable retries body =>
    "API 请求失败 (503 Service Unavailable) - 已重试 " ++ toString retries ++ " 次: " ++ body
  | .HttpError status body => "API 请求失败: " ++ toString status ++ " - " ++ body
  | .NetworkError m => m
  | .UnknownError => "API 请求发生未知错误"
  | .InvalidEnvelope => "invalid json response body"
  | .EmptyResponse => "模型未返回任何内容。"
  | .NonStringContent => "content.replace is not a function"
  | .MalformedResponse snippet =>
    "模型返回的数据格式无法解析。请重试。\n原始数据片段: " ++ snippet ++ "..."
  | .MissingField => "模型返回的数据缺少关键字段 chartPoints。"

/-! ## JavaScript object access and truthiness -/

/-- Lookup of a key in parsed-object fields; `JSON.parse` keeps the *last*
occurrence of a duplicated key, so the lookup prefers later fields. -/
def lookupField (fields : List (String × Json)) (k : String) : Option Json :=
  match fields with
  | [] => none
  | f :: rest =>
    match lookupField rest k with
    | some v => some v
    | none => if f.fst = k then some f.snd else none

/-- `value?.name` / `value.name`: property access, `none` models `undefined`
(accessing these names on non-objects yields `undefined` in JavaScript). -/
def jsGet (j : Json) (k : String) : Option Json :=
  match j with
  | Json.obj fields => lookupField fields k
  | _ => none

/-- `value?.[i]`: index access.  On an array it is element `i`; on an object
it is the property named `toString i`; on anything else `undefined`. -/
def jsIndex (j : Json) (i : Nat) : Option Json :=
  match j with
  | Json.arr xs => xs.get? i
  | Json.obj fields => lookupField fields (toString i)
  | _ => none

/-- JavaScript truthiness of a parsed JSON value (`undefined` is handled at
the `Option` level by the callers). -/
def Json.isTruthy : Json → Bool
  | Json.null => false
  | Json.bool b => b
  | Json.num n => n != 0
  | Json.str s => s != ""
  | Json.arr _ => true
  | Json.obj _ => true

/-- `x || dflt` on a possibly-`undefined` value. -/
def jsOr (v : Option Json) (dflt : Json) : Json :=
  match v with
  | some j => if j.isTruthy then j else dflt
  | none => dflt

/-- Truthiness of a possibly-`undefined` value. -/
def optTruthy (v : Option Json) : Bool :=
  match v with
  | some j => j.isTruthy
  | none => false

/-- `Array.isArray` of a possibly-`undefined` value. -/
def optIsArray (v : Option Json) : Bool :=
  match v with
  | some (Json.arr _) => true
  | _ => false

/-! ## Response-content normalization (source lines 168–187)

`cleanContent.replace(/```json/gi, "").replace(/```/g, "")` followed by the
first-`\x7b` / last-`\x7d` slice.  Each regex here is a literal pattern up to
per-character alternatives (that is exactly what the `i` flag adds), so the
global replace-with-empty is modelled as a left-to-right scan removing
non-overlapping occurrences. -/

/-- The pattern of `/```json/gi`: each position lists the characters the
regex accepts there. -/
def patFenceJson : List (List Char) :=
  [['`'], ['`'], ['`'], ['j', 'J'], ['s', 'S'], ['o', 'O'], ['n', 'N']]

/-- The pattern of `/```/g`. -/
def patFence3 : List (List Char) := [['`'], ['`'], ['`']]

/-- Try to consume the pattern at the head of the input. -/
def dropPat : List (List Char) → List Char → Option (List Char)
  | [], cs => some cs
  | _ :: _, [] => none
  | alts :: ps, c :: cs => if c ∈ alts then dropPat ps cs else none

/-- Remove every (leftmost, non-overlapping) occurrence of the pattern, as
JavaScript `String.prototype.replace` with a `g`-flagged literal pattern and
an empty replacement does.  Fuel is the input length. -/
def removeAllPat (pat : List (List Char)) : Nat → List Char → List Char
  | 0, cs => cs
  | _ + 1, [] => []
  | fuel + 1, c :: cs =>
    match dropPat pat (c :: cs) with
    | some rest => removeAllPat pat fuel rest
    | none => c :: removeAllPat pat fuel cs

/-- Source lines 171–172: strip the Markdown code-fence markers. -/
def stripFences (cs : List Char) : List Char :=
  let a := removeAllPat patFenceJson cs.length cs
  removeAllPat patFence3 a.length a

/-- `indexOf`: index of the first occurrence of a character. -/
def idxOf (c : Char) : List Char → Option Nat
  | [] => none
  | x :: xs => if x = c then some 0 else (idxOf c xs).map (· + 1)

/-- `lastIndexOf`: index of the last occurrence of a character. -/
def lastIdxOf (c : Char) (cs : List Char) : Option Nat :=
  (idxOf c cs.reverse).map (fun i => cs.length - 1 - i)

/-- Source lines 175–181: slice from the first `\x7b` to the last `\x7d`,
only when both exist and the closing brace strictly follows the opening one
(`cleanContent.substring(firstBrace, lastBrace + 1)`). -/
def braceSlice (cs : List Char) : List Char :=
  match idxOf lbrace cs, lastIdxOf rbrace cs with
  | some fb, some lb => if fb < lb then (cs.drop fb).take (lb + 1 - fb) else cs
  | _, _ => cs

/-- The full normalization of the model content string. -/
def cleanContentL (cs : List Char) : List Char := braceSlice (stripFences cs)

/-- The full normalization at the `String` level. -/
def cleanContent (s : String) : String := ⟨cleanContentL s.data⟩

/-! ## Result shape and field mapping (source lines 190–212) -/

/-- The `analysis` record of `LifeDestinyResult` (from `../types`); every
field is carried as the parsed JSON value the mapping stores there. -/
structure AnalysisReport where
  bazi : Json
  summary : Json
  summaryScore : Json
  industry : Json
  industryScore : Json
  wealth : Json
  wealthScore : Json
  marriage : Json
  marriageScore : Json
  health : Json
  healthScore : Json
  family : Json
  familyScore : Json

/-- The returned record (from `../types`). -/
structure LifeDestinyResult where
  chartData : List Json
  analysis : AnalysisReport

/-- Source line 190: `!data?.chartPoints || !Array.isArray(data.chartPoints)`. -/
def chartPointsGuard (cp : Option Json) : Bool :=
  !(optTruthy cp) || !(optIsArray cp)

/-- The record literal of source lines 194–211, with `xs` the validated
`chartPoints` array and every other field `|| `-defaulted. -/
def buildResult (data : Json) (xs : List Json) : LifeDestinyResult :=
  { chartData := xs
    analysis :=
      { bazi := jsOr (jsGet data "bazi") (Json.arr [])
        summary := jsOr (jsGet data "summary") (Json.str "无摘要")
        summaryScore := jsOr (jsGet data "summaryScore") (Json.num 5)
        industry := jsOr (jsGet data "industry") (Json.str "无")
        industryScore := jsOr (jsGet data "industryScore") (Json.num 5)
        wealth := jsOr (jsGet data "wealth") (Json.str "无")
        wealthScore := jsOr (jsGet data "wealthScore") (Json.num 5)
        marriage := jsOr (jsGet data "marriage") (Json.str "无")
        marriageScore := jsOr (jsGet data "marriageScore") (Json.num 5)
        health := jsOr (jsGet data "health") (Json.str "无")
        healthScore := jsOr (jsGet data "healthScore") (Json.num 5)
        family := jsOr (jsGet data "family") (Json.str "无")
        familyScore := jsOr (jsGet data "familyScore") (Json.num 5) } }

/-- Source lines 190–212: validate `chartPoints` and build the result with
`|| `-defaulting on every other field. -/
def mkResult (data : Json) : Except GenError LifeDestinyResult :=
  if chartPointsGuard (jsGet data "chartPoints") then Except.error GenError.MissingField
  else
    match jsGet data "chartPoints" with
    | some (Json.arr xs) => Except.ok (buildResult data xs)
    | _ => Except.error GenError.MissingField
      -- unreachable: the guard already rejected every non-array value
      -- (arrays are always truthy)

/-- Source lines 167–192: normalize the content string, `JSON.parse` it
(failure raises the parse error carrying `content.substring(0, 50)`), then
validate and map. -/
def processContent (content : String) : Except GenError LifeDestinyResult :=
  match parseJson (cleanContent content) with
  | some data => mkResult data
  | none => Except.error (GenError.MalformedResponse ⟨content.data.take 50⟩)

/-- Source line 159: `jsonResult.choices?.[0]?.message?.content`. -/
def envContent (env : Json) : Option Json :=
  (((jsGet env "choices").bind (fun ch => jsIndex ch 0)).bind
      (fun c0 => jsGet c0 "message")).bind
    (fun m => jsGet m "content")

/-- Source lines 158–192: `response.json()` (its runtime rejection on a
non-JSON body propagates through the outer catch), the content extraction
with the `if (!content)` truthiness check, then `processContent`. -/
def processResponse (body : String) : Except GenError LifeDestinyResult :=
  match parseJson body with
  | none => Except.error GenError.InvalidEnvelope
  | some env =>
    match envContent env with
    | none => Except.error GenError.EmptyResponse
    | some c =>
      if c.isTruthy then
        match c with
        | Json.str s => processContent s
        | _ => Except.error GenError.NonStringContent
      else Except.error GenError.EmptyResponse

/-! ## The retry loop (source lines 102–157)

`fetch` is abstracted into a *script*: a list of prearranged outcomes, one
per call — either an HTTP response (status and body text) or a thrown
network error.  The loop model returns its outcome together with the list of
backoff waits (milliseconds, in order) and the number of `fetch` calls
performed. -/

/-- An HTTP response as the loop observes it: `response.status` and the text
`await response.text()` / `await response.json()` reads. -/
structure HttpResponse where
  status : Nat
  body : String

/-- One prearranged outcome of a `fetch` call. -/
inductive FetchOutcome where
  | resp (r : HttpResponse)
  | netErr (msg : String)

/-- `response.ok`: status in the range 200–299. -/
def httpOk (status : Nat) : Bool := 200 ≤ status && status ≤ 299

/-- The `catch (err)` block (source lines 144–156), as a decision on a thrown
error: `none` means the error is rethrown (either `err.message.includes('503')`
or the attempt budget is exhausted after `attempt++`); `some attempt1` means
a fixed 2000 ms wait and another iteration with the incremented counter. -/
def catchStep (retries attempt : Nat) (e : GenError) : Option Nat :=
  if hasSubstr "503".data e.message.data then none -- `throw err`
  else
    let attempt1 := attempt + 1
    if retries ≤ attempt1 then none -- `if (attempt >= retries) throw err;`
    else some attempt1

/-- Result of the retry loop. -/
inductive LoopResult where
  | ok (r : HttpResponse)
  | err (e : GenError)
  | stuck
    -- model artifact: the script ran out of outcomes (a real `fetch` always
    -- produces one); no theorem below ever reaches this state

/-- The `while (attempt < retries)` loop (source lines 104–151).  Structural
fuel is `retries - attempt`; the fuel-0 base case is the loop exiting with
`attempt >= retries`, where the source's defensive `if (!response)` check
(source lines 153–155) throws the generic error.  A 503 increments the
counter and, unless the budget is exhausted, waits `2000 * attempt` ms and
retries; the 503-exhausted error and the non-ok `HttpError` are thrown
*inside* the `try`, so both pass through the `catch` block (`catchStep`), as
does a network error. -/
def runLoop (retries : Nat) : Nat → Nat → List FetchOutcome → LoopResult × List Nat × Nat
  | 0, _, _ => (LoopResult.err GenError.UnknownError, [], 0)
  | fuel + 1, attempt, script =>
    match script with
    | [] => (LoopResult.stuck, [], 0)
    | FetchOutcome.resp r :: rest =>
      if r.status = 503 then
        let attempt1 := attempt + 1
        if retries ≤ attempt1 then
          -- `throw new Error("API 请求失败 (503 ...) - 已重试 ${retries} 次: ...")`,
          -- caught by the catch block; its message contains "503", so it is
          -- rethrown there
          let e := GenError.ServiceUnavailable retries r.body
          match catchStep retries attempt1 e with
          | none => (LoopResult.err e, [], 1)
          | some a2 =>
            let next := runLoop retries fuel a2 rest
            (next.fst, 2000 :: next.snd.fst, next.snd.snd + 1)
        else
          -- `await new Promise(resolve => setTimeout(resolve, 2000 * attempt))`
          let next := runLoop retries fuel attempt1 rest
          (next.fst, 2000 * attempt1 :: next.snd.fst, next.snd.snd + 1)
      else if !(httpOk r.status) then
        -- `throw new Error("API 请求失败: ${status} - ${errText}")`, caught by
        -- the catch block of the same iteration
        let e := GenError.HttpError r.status r.body
        match catchStep retries attempt e with
        | none => (LoopResult.err e, [], 1)
        | some a2 =>
          let next := runLoop retries fuel a2 rest
          (next.fst, 2000 :: next.snd.fst, next.snd.snd + 1)
      else
        (LoopResult.ok r, [], 1) -- `break`
    | FetchOutcome.netErr msg :: rest =>
      -- `fetch` itself threw; caught by the catch block
      let e := GenError.NetworkError msg
      match catchStep retries attempt e with
      | none => (LoopResult.err e, [], 1)
      | some a2 =>
        let next := runLoop retries fuel a2 rest
        (next.fst, 2000 :: next.snd.fst, next.snd.snd + 1)

/-- Outcome of one call of `generateLifeAnalysis`. -/
inductive CallOutcome where
  | ok (r : LifeDestinyResult)
  | err (e : GenError)
  | stuck

/-- Source lines 16–218, `generateLifeAnalysis`.  Credential validation,
then `let retries = 3; let attempt = 0;` and the loop, then response
processing.  The request construction (source lines 27–100: `cleanBaseUrl`,
`targetModel`, `startAgeInt`, `derivedDirection` and the prompt text built
from them) only shapes the outbound payload, which the script abstracts;
those derivations are embedded as the standalone definitions above.  The
outer `try/catch` (source lines 101, 213–216) logs and rethrows, so it does
not change any outcome. -/
def generateLifeAnalysis (input : UserInput) (script : List FetchOutcome) :
    CallOutcome × List Nat × Nat :=
  if input.apiKey = "" ∨ jsTrim input.apiKey = "" then
    (CallOutcome.err (GenError.ConfigurationError "请在表单中填写有效的 API Key"), [], 0)
  else if input.apiBaseUrl = "" ∨ jsTrim input.apiBaseUrl = "" then
    (CallOutcome.err (GenError.ConfigurationError "请在表单中填写有效的 API Base URL"), [], 0)
  else
    let run := runLoop 3 3 0 script
    match run.fst with
    | LoopResult.stuck => (CallOutcome.stuck, run.snd.fst, run.snd.snd)
    | LoopResult.err e => (CallOutcome.err e, run.snd.fst, run.snd.snd)
    | LoopResult.ok r =>
      match processResponse r.body with
      | Except.ok result => (CallOutcome.ok result, run.snd.fst, run.snd.snd)
      | Except.error e => (CallOutcome.err e, run.snd.fst, run.snd.snd)

/-! ## Helper lemmas -/

/-- A fixed input with nonblank credentials, used to instantiate theorems. -/
def cfgInput : UserInput :=
  { apiKey := "k", apiBaseUrl := "https://api.example.com", modelName := "",
    name := "", gender := Gender.MALE, birthYear := "1990", yearPillar := "庚午",
    monthPillar := "", dayPillar := "", hourPillar := "", startAge := "8",
    firstDaYun := "戊申" }

theorem hasSubstr_nil (t : List Char) : hasSubstr [] t = true := by
  cases t <;> simp [hasSubstr, List.isPrefixOf]

theorem prefixOf_append (pat rest more : List Char) (h : pat.isPrefixOf rest = true) :
    pat.isPrefixOf (rest ++ more) = true := by
  induction pat generalizing rest with
  | nil => simp [List.isPrefixOf]
  | cons a as ih =>
    cases rest with
    | nil => simp [List.isPrefixOf] at h
    | cons b bs =>
      simp only [List.isPrefixOf, Bool.and_eq_true] at h
      simp only [List.cons_append, List.isPrefixOf, Bool.and_eq_true]
      exact ⟨h.1, ih bs h.2⟩

theorem prefixOf_refl (l : List Char) : l.isPrefixOf l = true := by
  induction l with
  | nil => simp [List.isPrefixOf]
  | cons a as ih => simp [List.isPrefixOf, ih]

theorem hasSubstr_append_right (pat hay t : List Char) (h : hasSubstr pat hay = true) :
    hasSubstr pat (hay ++ t) = true := by
  induction hay with
  | nil =>
    simp only [hasSubstr, List.isEmpty_iff] at h
    subst h
    simpa using hasSubstr_nil t
  | cons c cs ih =>
    simp only [hasSubstr, Bool.or_eq_true] at h
    simp only [List.cons_append, hasSubstr, Bool.or_eq_true]
    rcases h with h | h
    · exact Or.inl (prefixOf_append _ _ _ h)
    · exact Or.inr (ih h)

theorem hasSubstr_suffix (pre pat : List Char) : hasSubstr pat (pre ++ pat) = true := by
  induction pre with
  | nil =>
    cases pat with
    | nil => simp [hasSubstr]
    | cons p ps => simp [hasSubstr, prefixOf_refl]
  | cons c pre' ih =>
    simp only [List.cons_append, hasSubstr, Bool.or_eq_true]
    exact Or.inr ih

theorem removeAllPat_no_backtick (ps : List (List Char)) :
    ∀ (fuel : Nat) (cs : List Char), '`' ∉ cs →
      removeAllPat (['`'] :: ps) fuel cs = cs := by
  intro fuel
  induction fuel with
  | zero => intro cs _; rfl
  | succ n ih =>
    intro cs h
    cases cs with
    | nil => rfl
    | cons c cs' =>
      have hc : c ≠ '`' := fun hx => h (hx ▸ List.mem_cons_self c cs')
      have h' : '`' ∉ cs' := fun hx => h (List.mem_cons_of_mem c hx)
      simp only [removeAllPat, dropPat, List.mem_singleton]
      rw [if_neg hc]
      rw [ih cs' h']

theorem stripFences_no_backtick (cs : List Char) (h : '`' ∉ cs) :
    stripFences cs = cs := by
  unfold stripFences patFenceJson patFence3
  rw [removeAllPat_no_backtick _ _ _ h, removeAllPat_no_backtick _ _ _ h]

theorem idxOf_cons_self (c : Char) (t : List Char) : idxOf c (c :: t) = some 0 := by
  simp [idxOf]

theorem idxOf_append (c : Char) (l1 l2 : List Char) (k : Nat)
    (h1 : c ∉ l1) (h2 : idxOf c l2 = some k) :
    idxOf c (l1 ++ l2) = some (l1.length + k) := by
  induction l1 with
  | nil => simpa using h2
  | cons a l1' ih =>
    have ha : a ≠ c := fun hx => h1 (hx ▸ List.mem_cons_self a l1')
    have h1' : c ∉ l1' := fun hx => h1 (List.mem_cons_of_mem a hx)
    simp only [List.cons_append, idxOf, List.append_eq]
    rw [if_neg ha, ih h1']
    simp only [Option.map_some', List.length_cons, Option.some.injEq]
    omega

/-- Normalization recovers exactly the JSON span when the surrounding prose
is fence-free, the prose before holds no opening brace, the prose after
holds no closing brace, and the span starts with the opening brace and ends
with the closing one. -/
theorem cleanContentL_extracts (pre sd post : List Char)
    (hb1 : '`' ∉ pre) (hb2 : '`' ∉ sd) (hb3 : '`' ∉ post)
    (hpre : lbrace ∉ pre) (hpost : rbrace ∉ post)
    (hhead : sd.head? = some lbrace) (hlast : sd.getLast? = some rbrace) :
    cleanContentL (pre ++ sd ++ post) = sd := by
  have hnb : '`' ∉ pre ++ sd ++ post := by
    simp only [List.mem_append]
    rintro ((h | h) | h)
    · exact hb1 h
    · exact hb2 h
    · exact hb3 h
  obtain ⟨t, rfl⟩ : ∃ t, sd = lbrace :: t := by
    cases sd with
    | nil => simp at hhead
    | cons a t =>
      simp only [List.head?_cons, Option.some.injEq] at hhead
      exact ⟨t, by rw [hhead]⟩
  obtain ⟨u, hrev⟩ : ∃ u, (lbrace :: t).reverse = rbrace :: u := by
    have h1 : (lbrace :: t).reverse.head? = some rbrace := by
      rw [List.head?_reverse]; exact hlast
    cases hx : (lbrace :: t).reverse with
    | nil => rw [hx] at h1; simp at h1
    | cons a u =>
      rw [hx] at h1
      simp only [List.head?_cons, Option.some.injEq] at h1
      exact ⟨u, by rw [h1]⟩
  have ht : t ≠ [] := by
    intro h
    subst h
    simp only [List.getLast?_singleton, Option.some.injEq] at hlast
    exact absurd hlast (by decide)
  have hlen : 2 ≤ (lbrace :: t).length := by
    cases t with
    | nil => exact absurd rfl ht
    | cons b bs => simp only [List.length_cons]; omega
  have hfb : idxOf lbrace (pre ++ (lbrace :: t) ++ post) = some (pre.length + 0) := by
    rw [List.append_assoc]
    exact idxOf_append _ _ _ _ hpre (idxOf_cons_self lbrace (t ++ post))
  have hlb : lastIdxOf rbrace (pre ++ (lbrace :: t) ++ post)
      = some ((pre ++ (lbrace :: t) ++ post).length - 1 - post.length) := by
    unfold lastIdxOf
    have hidx : idxOf rbrace ((pre ++ (lbrace :: t)) ++ post).reverse
        = some (post.length + 0) := by
      rw [List.reverse_append]
      have h2 : idxOf rbrace ((pre ++ (lbrace :: t)).reverse) = some 0 := by
        rw [List.reverse_append, hrev]
        exact idxOf_cons_self rbrace (u ++ pre.reverse)
      have h3 : rbrace ∉ post.reverse := by
        rw [List.mem_reverse]; exact hpost
      have := idxOf_append rbrace post.reverse (pre ++ (lbrace :: t)).reverse 0 h3 h2
      rwa [List.length_reverse] at this
    rw [hidx]
    rfl
  have hlength : (pre ++ (lbrace :: t) ++ post).length
      = pre.length + (lbrace :: t).length + post.length := by
    simp only [List.length_append, List.length_cons]
  unfold cleanContentL
  rw [stripFences_no_backtick _ hnb]
  unfold braceSlice
  rw [hfb, hlb]
  split
  · rename_i fb lb heq1 heq2
    obtain rfl := Option.some.inj heq1
    obtain rfl := Option.some.inj heq2
    have hcond : pre.length + 0 < (pre ++ (lbrace :: t) ++ post).length - 1 - post.length := by
      rw [hlength]
      simp only [List.length_cons] at hlen ⊢
      omega
    rw [if_pos hcond]
    have harith : (pre ++ (lbrace :: t) ++ post).length - 1 - post.length + 1 - (pre.length + 0)
        = (lbrace :: t).length := by
      rw [hlength]
      simp only [List.length_cons] at hlen ⊢
      omega
    rw [harith, Nat.add_zero, List.append_assoc, List.drop_left, List.take_left]
  · rename_i hne
    exact (hne (pre.length + 0) ((pre ++ (lbrace :: t) ++ post).length - 1 - post.length)
      rfl rfl).elim

/-- Normalization at the `String` level. -/
theorem cleanContent_extracts (pre s post : String)
    (hb1 : '`' ∉ pre.data) (hb2 : '`' ∉ s.data) (hb3 : '`' ∉ post.data)
    (hpre : lbrace ∉ pre.data) (hpost : rbrace ∉ post.data)
    (hhead : s.data.head? = some lbrace) (hlast : s.data.getLast? = some rbrace) :
    cleanContent (pre ++ s ++ post) = s := by
  have hdata : (pre ++ s ++ post).data = pre.data ++ s.data ++ post.data := rfl
  show (⟨cleanContentL (pre ++ s ++ post).data⟩ : String) = s
  rw [hdata, cleanContentL_extracts pre.data s.data post.data hb1 hb2 hb3 hpre hpost hhead hlast]

/-! ## Claims -/

/-- Claim C7: stem-polarity classification of the year-pillar string returns
YANG for "甲子", YIN for "乙丑", YANG for the empty string (default), YANG
whenever the first character of the trimmed string lies in neither fixed
5-character set (fallback), and it is total — every input is classified. -/
theorem c7_stem_polarity :
    getStemPolarity "甲子" = Polarity.YANG ∧
    getStemPolarity "乙丑" = Polarity.YIN ∧
    getStemPolarity "" = Polarity.YANG ∧
    (∀ s : String, getStemPolarity s = Polarity.YANG ∨ getStemPolarity s = Polarity.YIN) ∧
    (∀ (s : String) (c : Char), (jsTrim s).data.head? = some c →
      c ∉ yangStems → c ∉ yinStems → getStemPolarity s = Polarity.YANG) := by
  refine ⟨rfl, rfl, rfl, ?_, ?_⟩
  · intro s
    cases h : getStemPolarity s
    · exact Or.inl rfl
    · exact Or.inr rfl
  · intro s c hc h1 h2
    by_cases hs : s = ""
    · simp [getStemPolarity, hs]
    · simp [getStemPolarity, hs, hc, h1, h2]

/-- Witness for C7 at the concrete input "X子", whose first character is in
neither stem list. -/
theorem c7_witness :
    'X' ∉ yangStems ∧ 'X' ∉ yinStems ∧ getStemPolarity "X子" = Polarity.YANG :=
  ⟨by decide, by decide,
    c7_stem_polarity.2.2.2.2 "X子" 'X' rfl (by decide) (by decide)⟩

/-- Claim C8: the derived Da Yun direction is forward for MALE with a YANG
year stem, backward for MALE with YIN, forward for non-MALE with YIN,
backward for non-MALE with YANG; and the direction derived from a full
input is exactly this function of gender and year-stem polarity. -/
theorem c8_da_yun_direction :
    computeIsForward Gender.MALE Polarity.YANG = true ∧
    computeIsForward Gender.MALE Polarity.YIN = false ∧
    computeIsForward Gender.FEMALE Polarity.YIN = true ∧
    computeIsForward Gender.FEMALE Polarity.YANG = false ∧
    (∀ input : UserInput,
      derivedDirection input = computeIsForward input.gender (getStemPolarity input.yearPillar)) :=
  ⟨rfl, rfl, rfl, rfl, fun _ => rfl⟩

/-- Claim C10: a starting-age string parsing to the integer 0 is replaced by
the default 1 even though it parses, while negative parsable strings are
kept as parsed. -/
theorem c10_zero_start_age :
    jsParseInt "0" = some 0 ∧ startAgeInt "0" = 1 ∧
    (∀ (s : String) (n : Int), jsParseInt s = some n → n < 0 → startAgeInt s = n) := by
  refine ⟨rfl, rfl, ?_⟩
  intro s n h hneg
  have hne : ¬ n = 0 := by omega
  simp [startAgeInt, h, hne]

/-- Witness for C10 at the concrete negative input "-5". -/
theorem c10_witness : jsParseInt "-5" = some (-5) ∧ startAgeInt "-5" = -5 :=
  ⟨rfl, c10_zero_start_age.2.2 "-5" (-5) rfl (by decide)⟩

/-- Claim C4: a blank (empty or whitespace-only) API key or base URL makes
the call fail with the configuration error, with no fetch performed and no
wait: the trace is `([], 0)` regardless of the script. -/
theorem c4_configuration_error :
    ∀ (input : UserInput) (script : List FetchOutcome),
      jsTrim input.apiKey = "" ∨ jsTrim input.apiBaseUrl = "" →
      ∃ msg, generateLifeAnalysis input script =
        (CallOutcome.err (GenError.ConfigurationError msg), [], 0) := by
  intro input script h
  by_cases h1 : input.apiKey = "" ∨ jsTrim input.apiKey = ""
  · exact ⟨"请在表单中填写有效的 API Key", by simp [generateLifeAnalysis, h1]⟩
  · rcases h with hk | hu
    · exact absurd (Or.inr hk) h1
    · have h2 : input.apiBaseUrl = "" ∨ jsTrim input.apiBaseUrl = "" := Or.inr hu
      exact ⟨"请在表单中填写有效的 API Base URL", by simp [generateLifeAnalysis, h1, h2]⟩

/-- Witness for C4 at a whitespace-only API key with a nonempty script. -/
theorem c4_witness :
    jsTrim "  " = "" ∧
    ∃ msg, generateLifeAnalysis { cfgInput with apiKey := "  " }
        [FetchOutcome.resp ⟨200, "body"⟩] =
      (CallOutcome.err (GenError.ConfigurationError msg), [], 0) :=
  ⟨rfl, c4_configuration_error { cfgInput with apiKey := "  " }
    [FetchOutcome.resp ⟨200, "body"⟩] (Or.inl rfl)⟩

/-- Claim C1, behavior of the code at the failing input: three 403 responses.
The `HttpError` throw for a non-503, non-ok status sits *inside* the `try`
block, so it is caught by the same `catch` that handles network errors; its
message "API 请求失败: 403 - Forbidden" does not contain "503", so instead of
failing immediately the code retries with a fixed 2000 ms wait.  The trace
is three fetches and two waits, with the `HttpError` of the *third* response
surfacing only after the attempt budget is exhausted — not one fetch and no
wait. -/
theorem c1_403_is_retried :
    generateLifeAnalysis cfgInput
        [FetchOutcome.resp ⟨403, "Forbidden"⟩, FetchOutcome.resp ⟨403, "Forbidden"⟩,
          FetchOutcome.resp ⟨403, "Forbidden"⟩]
      = (CallOutcome.err (GenError.HttpError 403 "Forbidden"), [2000, 2000], 3) := rfl

/-- Claim C2: three consecutive 503 responses exhaust the budget — waits of
2000 ms then 4000 ms (`2000 * attemptNumber`), exactly 3 fetches — and the
call fails with the `ServiceUnavailable` error for 3 retries carrying the
final body, whose message contains the body text, "503", and "3". -/
theorem c2_503_exhaustion :
    ∀ (input : UserInput) (b1 b2 b3 : String),
      ¬(input.apiKey = "" ∨ jsTrim input.apiKey = "") →
      ¬(input.apiBaseUrl = "" ∨ jsTrim input.apiBaseUrl = "") →
      generateLifeAnalysis input
          [FetchOutcome.resp ⟨503, b1⟩, FetchOutcome.resp ⟨503, b2⟩,
            FetchOutcome.resp ⟨503, b3⟩]
        = (CallOutcome.err (GenError.ServiceUnavailable 3 b3), [2000, 4000], 3) ∧
      strIncludes (GenError.ServiceUnavailable 3 b3).message "503" = true ∧
      strIncludes (GenError.ServiceUnavailable 3 b3).message "3" = true ∧
      strIncludes (GenError.ServiceUnavailable 3 b3).message b3 = true := by
  intro input b1 b2 b3 h1 h2
  have hdata : (GenError.ServiceUnavailable 3 b3).message.data
      = "API 请求失败 (503 Service Unavailable) - 已重试 3 次: ".data ++ b3.data := rfl
  refine ⟨?_, ?_, ?_, ?_⟩
  · unfold generateLifeAnalysis
    rw [if_neg h1, if_neg h2]
    rfl
  · show hasSubstr "503".data (GenError.ServiceUnavailable 3 b3).message.data = true
    rw [hdata]
    exact hasSubstr_append_right _ _ _ (by decide)
  · show hasSubstr "3".data (GenError.ServiceUnavailable 3 b3).message.data = true
    rw [hdata]
    exact hasSubstr_append_right _ _ _ (by decide)
  · show hasSubstr b3.data (GenError.ServiceUnavailable 3 b3).message.data = true
    rw [hdata]
    exact hasSubstr_suffix _ _

/-- Witness for C2 at concrete bodies. -/
theorem c2_witness :
    generateLifeAnalysis cfgInput
        [FetchOutcome.resp ⟨503, "overloaded"⟩, FetchOutcome.resp ⟨503, "overloaded"⟩,
          FetchOutcome.resp ⟨503, "overloaded"⟩]
      = (CallOutcome.err (GenError.ServiceUnavailable 3 "overloaded"), [2000, 4000], 3) ∧
    strIncludes (GenError.ServiceUnavailable 3 "overloaded").message "503" = true ∧
    strIncludes (GenError.ServiceUnavailable 3 "overloaded").message "3" = true ∧
    strIncludes (GenError.ServiceUnavailable 3 "overloaded").message "overloaded" = true :=
  c2_503_exhaustion cfgInput "overloaded" "overloaded" "overloaded" (by decide) (by decide)

/-- Claim C3: after two 503 responses, a 200 response within the 3-attempt
budget succeeds with the result parsed from the third response's body. -/
theorem c3_recover_within_budget :
    ∀ (input : UserInput) (b1 b2 body : String) (r : LifeDestinyResult),
      ¬(input.apiKey = "" ∨ jsTrim input.apiKey = "") →
      ¬(input.apiBaseUrl = "" ∨ jsTrim input.apiBaseUrl = "") →
      processResponse body = Except.ok r →
      generateLifeAnalysis input
          [FetchOutcome.resp ⟨503, b1⟩, FetchOutcome.resp ⟨503, b2⟩,
            FetchOutcome.resp ⟨200, body⟩]
        = (CallOutcome.ok r, [2000, 4000], 3) := by
  intro input b1 b2 body r h1 h2 h3
  unfold generateLifeAnalysis
  rw [if_neg h1, if_neg h2]
  have hrun : runLoop 3 3 0 [FetchOutcome.resp ⟨503, b1⟩, FetchOutcome.resp ⟨503, b2⟩,
      FetchOutcome.resp ⟨200, body⟩] = (LoopResult.ok ⟨200, body⟩, [2000, 4000], 3) := rfl
  simp only [hrun]
  rw [h3]

/-- A success envelope used to instantiate C3. -/
def envOkBody : String :=
  "\x7b\"choices\":[\x7b\"message\":\x7b\"content\":\"\x7b\\\"chartPoints\\\":[1,2,3]\x7d\"\x7d\x7d]\x7d"

/-- The record C3's witness expects from `envOkBody`. -/
def envOkResult : LifeDestinyResult :=
  { chartData := [Json.num 1, Json.num 2, Json.num 3]
    analysis :=
      { bazi := Json.arr []
        summary := Json.str "无摘要"
        summaryScore := Json.num 5
        industry := Json.str "无"
        industryScore := Json.num 5
        wealth := Json.str "无"
        wealthScore := Json.num 5
        marriage := Json.str "无"
        marriageScore := Json.num 5
        health := Json.str "无"
        healthScore := Json.num 5
        family := Json.str "无"
        familyScore := Json.num 5 } }

/-- Witness for C3 at a concrete success body. -/
theorem c3_witness :
    processResponse envOkBody = Except.ok envOkResult ∧
    generateLifeAnalysis cfgInput
        [FetchOutcome.resp ⟨503, "x"⟩, FetchOutcome.resp ⟨503, "y"⟩,
          FetchOutcome.resp ⟨200, envOkBody⟩]
      = (CallOutcome.ok envOkResult, [2000, 4000], 3) :=
  ⟨rfl, c3_recover_within_budget cfgInput "x" "y" envOkBody envOkResult
    (by decide) (by decide) rfl⟩

/-- Claim C6: if the parsed object's `chartPoints` field is missing or not
an array, the mapping fails with the missing-field error; if it is present
as an array, no missing-field error is raised — the mapping succeeds, and
the array becomes `chartData`. -/
theorem c6_chart_points_validation :
    ∀ data : Json,
      (optIsArray (jsGet data "chartPoints") = false →
        mkResult data = Except.error GenError.MissingField) ∧
      (∀ xs : List Json, jsGet data "chartPoints" = some (Json.arr xs) →
        ∃ r, mkResult data = Except.ok r ∧ r.chartData = xs) := by
  intro data
  constructor
  · intro h
    have hguard : chartPointsGuard (jsGet data "chartPoints") = true := by
      unfold chartPointsGuard
      rw [h]
      simp
    simp [mkResult, hguard]
  · intro xs h
    refine ⟨buildResult data xs, ?_, rfl⟩
    simp [mkResult, h, chartPointsGuard, optTruthy, optIsArray, Json.isTruthy]

/-- Witness for C6: a non-array `chartPoints` is rejected, an array one is
accepted. -/
theorem c6_witness :
    mkResult (Json.obj [("chartPoints", Json.str "oops")])
      = Except.error GenError.MissingField ∧
    ∃ r, mkResult (Json.obj [("chartPoints", Json.arr [Json.num 7])]) = Except.ok r ∧
      r.chartData = [Json.num 7] :=
  ⟨(c6_chart_points_validation (Json.obj [("chartPoints", Json.str "oops")])).1 rfl,
    (c6_chart_points_validation (Json.obj [("chartPoints", Json.arr [Json.num 7])])).2
      [Json.num 7] rfl⟩

/-- Claim C9: `|| `-defaulting applies to every falsy value, not only absent
fields — a `summaryScore` present as 0 is replaced by the default 5, and a
`summary` present as the empty string is replaced by its placeholder, in the
returned record. -/
theorem c9_falsy_defaulting :
    ∀ (data : Json) (xs : List Json),
      jsGet data "chartPoints" = some (Json.arr xs) →
      jsGet data "summaryScore" = some (Json.num 0) →
      jsGet data "summary" = some (Json.str "") →
      ∃ r, mkResult data = Except.ok r ∧
        r.analysis.summaryScore = Json.num 5 ∧ r.analysis.summary = Json.str "无摘要" := by
  intro data xs h1 h2 h3
  refine ⟨buildResult data xs, ?_, ?_, ?_⟩
  · simp [mkResult, h1, chartPointsGuard, optTruthy, optIsArray, Json.isTruthy]
  · show jsOr (jsGet data "summaryScore") (Json.num 5) = Json.num 5
    rw [h2]
    simp [jsOr, Json.isTruthy]
  · show jsOr (jsGet data "summary") (Json.str "无摘要") = Json.str "无摘要"
    rw [h3]
    simp [jsOr, Json.isTruthy]

/-- Witness for C9 at a concrete object carrying a zero score and an empty
summary. -/
theorem c9_witness :
    ∃ r, mkResult (Json.obj [("chartPoints", Json.arr []), ("summaryScore", Json.num 0),
        ("summary", Json.str "")]) = Except.ok r ∧
      r.analysis.summaryScore = Json.num 5 ∧ r.analysis.summary = Json.str "无摘要" :=
  c9_falsy_defaulting
    (Json.obj [("chartPoints", Json.arr []), ("summaryScore", Json.num 0),
      ("summary", Json.str "")]) [] rfl rfl rfl

/-- Claim C5: normalization strips code fences and slices from the first
opening brace to the last closing brace (only when both exist and the
closing one follows the opening one).  Concretely, the fenced content
parses to `chartData = [1, 2, 3]`; generally, valid JSON surrounded by
fence-free prose (no opening brace before it, no closing brace after it)
is normalized to exactly the JSON span and still parses successfully. -/
theorem c5_normalization :
    (∃ r, processContent "```json\n\x7b\"chartPoints\":[1,2,3]\x7d\n```" = Except.ok r ∧
      r.chartData = [Json.num 1, Json.num 2, Json.num 3]) ∧
    (∀ (pre s post : String) (v : Json),
      '`' ∉ pre.data → '`' ∉ s.data → '`' ∉ post.data →
      lbrace ∉ pre.data → rbrace ∉ post.data →
      s.data.head? = some lbrace → s.data.getLast? = some rbrace →
      parseJson s = some v →
      cleanContent (pre ++ s ++ post) = s ∧
      processContent (pre ++ s ++ post) = mkResult v) := by
  constructor
  · exact ⟨_, rfl, rfl⟩
  · intro pre s post v hb1 hb2 hb3 hpre hpost hhead hlast hv
    have hclean : cleanContent (pre ++ s ++ post) = s :=
      cleanContent_extracts pre s post hb1 hb2 hb3 hpre hpost hhead hlast
    refine ⟨hclean, ?_⟩
    unfold processContent
    rw [hclean, hv]

/-- Witness for C5's prose-tolerance part at concrete strings. -/
theorem c5_witness :
    cleanContent ("Result: " ++ "\x7b\"chartPoints\":[]\x7d" ++ " Done.")
      = "\x7b\"chartPoints\":[]\x7d" ∧
    processContent ("Result: " ++ "\x7b\"chartPoints\":[]\x7d" ++ " Done.")
      = mkResult (Json.obj [("chartPoints", Json.arr [])]) :=
  c5_normalization.2 "Result: " "\x7b\"chartPoints\":[]\x7d" " Done."
    (Json.obj [("chartPoints", Json.arr [])])
    (by decide) (by decide) (by decide) (by decide) (by decide) rfl rfl rfl

end Lifekline
